import Mathlib

/-!
Shallow embedding of the comment subsystem of the `comment-app` backend
(`src/modules/comments/comments.service.ts` and the `Comment` entity),
together with theorems checking the natural-language specification against it.

Modelling conventions:
* Timestamps are `Int` milliseconds since the epoch (JS `Date` comparisons
  compare millisecond values); the wall clock `now` that the source reads via
  `Date.now()` inside entity getters and service methods is passed explicitly.
* The persistent store is a list of comments; `findById` is the point lookup,
  `saveUpdate` is a `repository.save` of an already-persisted row,
  `insert` is a `repository.save` of a fresh row, and `updateChildrenCount`
  is `repository.update(id, { childrenCount: v })` (an absolute write of `v`).
* NestJS exceptions are mapped to the spec's error taxonomy:
  `NotFoundException ↦ NotFound`, `ForbiddenException ↦ Forbidden`,
  `BadRequestException ↦ InvalidState`; an error escaping the external
  notification call is `NotifyFailed`.
* Service methods return `Store × Except Err Comment`: the store component is
  the state of the database when the method finishes (also when it throws,
  since already-awaited writes are durable), the second component the
  returned value or thrown exception.
-/

namespace CommentApp

/-- The `Comment` entity (`comment.entity.ts`): persisted columns only;
relations (`author`, `parent`, `children`) are reconstructed by queries. -/
structure Comment where
  id : String
  content : String
  originalContent : Option String := none
  isEdited : Bool := false
  editedAt : Option Int := none
  isDeleted : Bool := false
  deletedAt : Option Int := none
  restoredAt : Option Int := none
  depth : Nat := 0
  childrenCount : Nat := 0
  /-- Materialized path; the column is nullable and `''`/`NULL` are both
  falsy in the service's checks, so both are modelled as `""`. -/
  path : String := ""
  createdAt : Int := 0
  authorId : String
  parentId : Option String := none
deriving Repr, DecidableEq

/-- The 15-minute window used by all three entity getters:
`new Date(Date.now() - 15 * 60 * 1000)`. -/
def editWindowMs : Int := 15 * 60 * 1000

/-- `get isEditable()`: `this.createdAt > fifteenMinutesAgo && !this.isDeleted`. -/
def Comment.isEditable (c : Comment) (now : Int) : Bool :=
  decide (c.createdAt > now - editWindowMs) && !c.isDeleted

/-- `get isDeletable()`: `this.createdAt > fifteenMinutesAgo`. -/
def Comment.isDeletable (c : Comment) (now : Int) : Bool :=
  decide (c.createdAt > now - editWindowMs)

/-- `get isRestorable()`: `if (!this.isDeleted || !this.deletedAt) return false;
return this.deletedAt > fifteenMinutesAgo`. -/
def Comment.isRestorable (c : Comment) (now : Int) : Bool :=
  if !c.isDeleted then false
  else
    match c.deletedAt with
    | none => false
    | some d => decide (d > now - editWindowMs)

/-- `get displayContent()`. -/
def Comment.displayContent (c : Comment) : String :=
  if c.isDeleted then "[Comment deleted]" else c.content

/-- Error taxonomy (§7 of the spec). `NotifyFailed` stands for an arbitrary
error escaping the external notification-creation call. -/
inductive Err where
  | NotFound
  | Forbidden
  | InvalidState
  | NotifyFailed
deriving Repr, DecidableEq

deriving instance DecidableEq for Except

/-- The comment table. -/
abbrev Store := List Comment

/-- `findById`: `repository.findOne({ where: { id } })` (relations omitted:
they do not affect the persisted columns the claims are about). -/
def findById (s : Store) (id : String) : Option Comment :=
  s.find? (fun c => c.id == id)

/-- `repository.save(comment)` on an already-persisted row: replace the row
with the same id. -/
def saveUpdate (s : Store) (c : Comment) : Store :=
  s.map (fun x => if x.id == c.id then c else x)

/-- `repository.save(comment)` on a fresh row: append it. -/
def insert (s : Store) (c : Comment) : Store :=
  s ++ [c]

/-- `repository.update(id, { childrenCount: v })`: a single-column absolute
write of the value `v` into the row `id`. -/
def updateChildrenCount (s : Store) (id : String) (v : Nat) : Store :=
  s.map (fun x => if x.id == id then { x with childrenCount := v } else x)

/-- `CreateCommentData` (service DTO). -/
structure CreateCommentData where
  content : String
  authorId : String
  parentId : Option String := none

/-- Lines 46-49 of the service: `repository.update(parentId,
{ childrenCount: parent.childrenCount + 1 })` — the written value is computed
from the previously fetched `parent` object, not added atomically in store. -/
def incrementParentChildrenCount (s : Store) (parent : Comment) : Store :=
  updateChildrenCount s parent.id (parent.childrenCount + 1)

/-- `CommentsService.create`. `newId` is the uuid the store generates for the
new row, `now` the wall clock at insertion (`@CreateDateColumn`), `notifyOk`
whether the external `createCommentReplyNotification` call succeeds. -/
def create (s : Store) (data : CreateCommentData) (newId : String) (now : Int)
    (notifyOk : Bool) : Store × Except Err Comment :=
  match data.parentId with
  | none =>
      let comment : Comment :=
        { id := newId, content := data.content, authorId := data.authorId,
          parentId := none, depth := 0, path := "", createdAt := now }
      let s1 := insert s comment
      match findById s1 newId with
      | some c => (s1, .ok c)
      | none => (s1, .error .NotFound)
  | some pid =>
      match findById s pid with
      | none => (s, .error .NotFound)
      | some parent =>
        if parent.isDeleted then
          (s, .error .InvalidState)
        else
          let comment : Comment :=
            { id := newId, content := data.content, authorId := data.authorId,
              parentId := some pid, depth := parent.depth + 1,
              path := if parent.path != "" then parent.path ++ "." ++ parent.id
                      else parent.id,
              createdAt := now }
          let s1 := incrementParentChildrenCount s parent
          let s2 := insert s1 comment
          if parent.authorId != data.authorId && !notifyOk then
            (s2, .error .NotifyFailed)
          else
            match findById s2 newId with
            | some c => (s2, .ok c)
            | none => (s2, .error .NotFound)

/-- `CommentsService.update`. -/
def update (s : Store) (id : String) (newContent : String) (userId : String)
    (now : Int) : Store × Except Err Comment :=
  match findById s id with
  | none => (s, .error .NotFound)
  | some comment =>
    if comment.authorId != userId then (s, .error .Forbidden)
    else if !comment.isEditable now then (s, .error .Forbidden)
    else if comment.isDeleted then (s, .error .InvalidState)
    else
      let c1 := if !comment.isEdited then
                  { comment with originalContent := some comment.content }
                else comment
      let c2 := { c1 with content := newContent, isEdited := true,
                          editedAt := some now }
      (saveUpdate s c2, .ok c2)

/-- `CommentsService.delete` (soft delete). -/
def delete (s : Store) (id : String) (userId : String) (now : Int) :
    Store × Except Err Comment :=
  match findById s id with
  | none => (s, .error .NotFound)
  | some comment =>
    if comment.authorId != userId then (s, .error .Forbidden)
    else if !comment.isDeletable now then (s, .error .Forbidden)
    else
      let c := { comment with isDeleted := true, deletedAt := some now }
      (saveUpdate s c, .ok c)

/-- `CommentsService.restore`. -/
def restore (s : Store) (id : String) (userId : String) (now : Int) :
    Store × Except Err Comment :=
  match findById s id with
  | none => (s, .error .NotFound)
  | some comment =>
    if comment.authorId != userId then (s, .error .Forbidden)
    else if !comment.isRestorable now then (s, .error .Forbidden)
    else
      let c := { comment with isDeleted := false, deletedAt := none,
                              restoredAt := some now }
      (saveUpdate s c, .ok c)

/-- Stable insertion used to model SQL `ORDER BY`. -/
def insertSorted (le : Comment → Comment → Bool) (c : Comment) :
    List Comment → List Comment
  | [] => [c]
  | x :: xs => if le c x then c :: x :: xs else x :: insertSorted le c xs

/-- Insertion sort used to model SQL `ORDER BY`. -/
def sortComments (le : Comment → Comment → Bool) : List Comment → List Comment
  | [] => []
  | x :: xs => insertSorted le x (sortComments le xs)

/-- `ORDER BY comment.createdAt ASC`. -/
def sortByCreatedAt (l : List Comment) : List Comment :=
  sortComments (fun a b => decide (a.createdAt ≤ b.createdAt)) l

/-- `ORDER BY comment.createdAt DESC`. -/
def sortByCreatedAtDesc (l : List Comment) : List Comment :=
  sortComments (fun a b => decide (b.createdAt ≤ a.createdAt)) l

/-- SQL `column LIKE 'stem%'`: the column value starts with `stem`
(character-level prefix test). -/
def likeStartsWith (stem s : String) : Bool :=
  List.isPrefixOf stem.data s.data

/-- Character-level splitter realizing JS `String.prototype.split(sep)` for a
one-character separator (same corner cases: `"" ↦ [""]`, empty segments kept). -/
def splitOnSep (sep : Char) : List Char → List Char → List String
  | [], acc => [String.mk acc.reverse]
  | c :: rest, acc =>
    if c = sep then String.mk acc.reverse :: splitOnSep sep rest []
    else splitOnSep sep rest (c :: acc)

/-- `comment.path.split('.')`. -/
def pathSegments (p : String) : List String :=
  splitOnSep '.' p.data []

/-- The LIKE pattern stem of `findByIdWithChildren`, line 93:
`${comment.path ? comment.path + '.' : ''}${comment.id}` (the trailing `%`
makes it a starts-with match). -/
def subtreePathStem (c : Comment) : String :=
  (if c.path != "" then c.path ++ "." else "") ++ c.id

/-- The descendants query of `findByIdWithChildren` (lines 90-96):
`WHERE path LIKE stem% AND id != :id ORDER BY createdAt ASC`.
A row whose `path` column is NULL never matches a LIKE, and the model's
`""` path is never matched either since the stem contains the nonempty id. -/
def subtreeFlatQuery (s : Store) (c : Comment) : List Comment :=
  sortByCreatedAt (s.filter fun x =>
    likeStartsWith (subtreePathStem c) x.path && x.id != c.id)

/-- A node of the nested result: the comment with its populated
`children` relation. -/
inductive CTree where
  | mk : Comment → List CTree → CTree
deriving Repr

/-- The comment at a node. -/
def CTree.node : CTree → Comment
  | .mk c _ => c

/-- The children list of a node. -/
def CTree.kids : CTree → List CTree
  | .mk _ ts => ts

/-- `CommentsService.buildNestedStructure` (lines 250-259): a comment is made
a child of `parentId` whenever `comment.path && comment.path.split('.')
.includes(parentId)`. `fuel` bounds the recursion depth; the source recursion
descends from a node to ids appearing strictly later in its members' paths,
and every concrete evaluation below carries fuel larger than that depth. -/
def buildNestedStructure (fuel : Nat) (comments : List Comment)
    (parentId : String) : List CTree :=
  match fuel with
  | 0 => []
  | fuel + 1 =>
    let children := comments.filter fun c =>
      c.path != "" && (pathSegments c.path).contains parentId
    children.map fun child =>
      CTree.mk child (buildNestedStructure fuel comments child.id)

/-- `CommentsService.findByIdWithChildren` (lines 81-101). -/
def findByIdWithChildren (s : Store) (id : String) :
    Option (Comment × List CTree) :=
  match findById s id with
  | none => none
  | some comment =>
    let children := subtreeFlatQuery s comment
    some (comment, buildNestedStructure (children.length + 1) children comment.id)

/-- The thread query of `getThreadByComment` (lines 237-245):
`WHERE id = :rootId OR path LIKE rootId% ORDER BY createdAt ASC`. -/
def threadQuery (s : Store) (rootId : String) : List Comment :=
  sortByCreatedAt (s.filter fun x =>
    x.id == rootId || likeStartsWith rootId x.path)

/-- `CommentsService.getThreadByComment` (lines 222-248). -/
def getThreadByComment (s : Store) (commentId : String) :
    Except Err (List Comment) :=
  match findById s commentId with
  | none => .error .NotFound
  | some comment =>
    let rootId := if comment.path != "" then
                    (pathSegments comment.path).headD commentId
                  else commentId
    .ok (threadQuery s rootId)

/-- Options of `CommentsService.findMany`; `parentId` is tri-state
(`undefined` / explicit `null` / a value). -/
structure FindManyOptions where
  page : Nat := 1
  limit : Nat := 10
  authorId : Option String := none
  parentId : Option (Option String) := none
  includeDeleted : Bool := false

/-- The WHERE clauses of `findMany` (lines 117-131). -/
def findManyPred (o : FindManyOptions) (c : Comment) : Bool :=
  (o.includeDeleted || !c.isDeleted)
  && (match o.authorId with
      | none => true
      | some a => c.authorId == a)
  && (match o.parentId with
      | none => true
      | some none => c.parentId == none
      | some (some p) => c.parentId == some p)

/-- `CommentsService.findMany` (lines 103-146): filter, order by `createdAt`
descending, paginate with `skip`/`take`, return the page and the total count
of matching rows. -/
def findMany (s : Store) (o : FindManyOptions) : List Comment × Nat :=
  let filtered := s.filter (findManyPred o)
  let sorted := sortByCreatedAtDesc filtered
  ((sorted.drop ((o.page - 1) * o.limit)).take o.limit, filtered.length)

/-- The comment produced by a successful `update` (lines 167-174): capture
`originalContent` on the first edit only, then overwrite content and stamp the
edit flags. -/
def editResult (c : Comment) (txt : String) (now : Int) : Comment :=
  let c1 := if !c.isEdited then { c with originalContent := some c.content }
            else c
  { c1 with content := txt, isEdited := true, editedAt := some now }

/-! Concrete fixtures used to run the model. -/

/-- A root comment by `alice`, created at time 0. -/
def parentP : Comment :=
  { id := "P", content := "root", authorId := "alice", createdAt := 0 }

/-- The reply row a concurrent reply request inserts under `parentP`. -/
def replyRow (cid : String) : Comment :=
  { id := cid, content := "re", authorId := "bob", parentId := some "P",
    depth := 1, path := "P", createdAt := 1 }

/-- Two reply requests riding lines 34-60 concurrently: both fetched the
parent row (`parentP`, `childrenCount = 0`) from the initial store before
either wrote, then each performed the service's
`update(parentId, { childrenCount: parent.childrenCount + 1 })` and saved its
own reply row. -/
def lostUpdateStore : Store :=
  insert
    (incrementParentChildrenCount
      (insert (incrementParentChildrenCount [parentP] parentP) (replyRow "A"))
      parentP)
    (replyRow "B")

/-- A soft-deleted comment by `alice`, created and deleted at time 0. -/
def cDel : Comment :=
  { id := "D", content := "gone", authorId := "alice", createdAt := 0,
    isDeleted := true, deletedAt := some 0 }

/-- An undeleted comment created at time 0, observed exactly at the window
boundary `now = editWindowMs`. -/
def boundaryComment : Comment :=
  { id := "b", content := "x", authorId := "u", createdAt := 0 }

/-- Root of a three-level chain. -/
def rootR : Comment :=
  { id := "R", content := "r", authorId := "u", createdAt := 0 }

/-- Direct child of `rootR`. -/
def childB : Comment :=
  { id := "B", content := "b", authorId := "u", createdAt := 1,
    parentId := some "R", depth := 1, path := "R" }

/-- Direct child of `childB`, grandchild of `rootR`. -/
def grandC : Comment :=
  { id := "C", content := "c", authorId := "u", createdAt := 2,
    parentId := some "B", depth := 2, path := "R.B" }

/-- The three-level chain `R ← B ← C`. -/
def subtreeStore : Store := [rootR, childB, grandC]

/-- The comment produced by a first successful edit of `parentP`. -/
def editedP : Comment := editResult parentP "e1" 1

/-- Creation data for a reply by `bob` under `parentP`. -/
def replyData : CreateCommentData :=
  { content := "hi", authorId := "bob", parentId := some "P" }

/-- The row `create [parentP] replyData "X" 5 _` persists. -/
def replyX : Comment :=
  { id := "X", content := "hi", authorId := "bob", parentId := some "P",
    depth := 1, path := "P", createdAt := 5 }

/-! Store lemmas shared by the claim theorems. -/

/-- `find?` by id commutes with an id-preserving row rewrite. -/
theorem find?_map_preserveId (f : Comment → Comment)
    (hf : ∀ x, (f x).id = x.id) (s : Store) (nid : String) :
    (s.map f).find? (fun c => c.id == nid) =
      (s.find? (fun c => c.id == nid)).map f := by
  induction s with
  | nil => rfl
  | cons hd tl ih =>
    by_cases h : hd.id == nid
    · simp [List.find?, hf, h]
    · simp [List.find?, hf, h, ih]

/-- `findById` after `updateChildrenCount` is `findById` with the counter
rewrite applied to the hit. -/
theorem findById_updateChildrenCount (s : Store) (pid nid : String) (v : Nat) :
    findById (updateChildrenCount s pid v) nid =
      (findById s nid).map
        (fun x => if x.id == pid then { x with childrenCount := v } else x) := by
  unfold findById updateChildrenCount
  exact find?_map_preserveId _ (fun x => by split <;> rfl) s nid

/-- `findById` after `saveUpdate` is `findById` with the replacement applied
to the hit. -/
theorem findById_saveUpdate (s : Store) (c' : Comment) (nid : String) :
    findById (saveUpdate s c') nid =
      (findById s nid).map (fun x => if x.id == c'.id then c' else x) := by
  unfold findById saveUpdate
  refine find?_map_preserveId _ (fun x => ?_) s nid
  by_cases h : x.id == c'.id
  · simp [h]
    exact (eq_of_beq h).symm
  · simp [h]

/-- A `findById` hit has the looked-up id. -/
theorem findById_id (s : Store) (nid : String) (c : Comment)
    (h : findById s nid = some c) : c.id = nid := by
  have hp := List.find?_some h
  exact eq_of_beq hp

/-- Appending a fresh row makes it the `findById` hit for its id. -/
theorem findById_insert_fresh (s : Store) (c : Comment) (nid : String)
    (hfresh : findById s nid = none) (hid : c.id = nid) :
    findById (insert s c) nid = some c := by
  unfold findById insert
  unfold findById at hfresh
  rw [List.find?_append, hfresh]
  simp [List.find?, hid]

/-- Saving a row with the id of the current hit makes it the new hit. -/
theorem findById_saveUpdate_hit (s : Store) (cid : String) (c c' : Comment)
    (h : findById s cid = some c) (hid : c'.id = c.id) :
    findById (saveUpdate s c') cid = some c' := by
  rw [findById_saveUpdate, h]
  have heq : c.id = c'.id := hid.symm
  simp [heq]

/-- Membership in a sorted insertion. -/
theorem mem_insertSorted (le : Comment → Comment → Bool) (c x : Comment)
    (l : List Comment) :
    x ∈ insertSorted le c l ↔ x = c ∨ x ∈ l := by
  induction l with
  | nil => simp [insertSorted]
  | cons hd tl ih =>
    unfold insertSorted
    split
    · simp [List.mem_cons]
    · simp [List.mem_cons, ih]
      tauto

/-- The `ORDER BY` model permutes rows: membership is unchanged. -/
theorem mem_sortComments (le : Comment → Comment → Bool) (x : Comment)
    (l : List Comment) :
    x ∈ sortComments le l ↔ x ∈ l := by
  induction l with
  | nil => simp [sortComments]
  | cons hd tl ih =>
    simp [sortComments, mem_insertSorted, ih, List.mem_cons]

/-- `editResult` keeps `id`. -/
theorem editResult_id (c : Comment) (txt : String) (now : Int) :
    (editResult c txt now).id = c.id := by
  unfold editResult; by_cases hE : c.isEdited <;> simp [hE]

/-- `editResult` keeps `authorId`. -/
theorem editResult_authorId (c : Comment) (txt : String) (now : Int) :
    (editResult c txt now).authorId = c.authorId := by
  unfold editResult; by_cases hE : c.isEdited <;> simp [hE]

/-- `editResult` keeps `parentId`. -/
theorem editResult_parentId (c : Comment) (txt : String) (now : Int) :
    (editResult c txt now).parentId = c.parentId := by
  unfold editResult; by_cases hE : c.isEdited <;> simp [hE]

/-- `editResult` keeps `depth`. -/
theorem editResult_depth (c : Comment) (txt : String) (now : Int) :
    (editResult c txt now).depth = c.depth := by
  unfold editResult; by_cases hE : c.isEdited <;> simp [hE]

/-- `editResult` keeps `path`. -/
theorem editResult_path (c : Comment) (txt : String) (now : Int) :
    (editResult c txt now).path = c.path := by
  unfold editResult; by_cases hE : c.isEdited <;> simp [hE]

/-- `editResult` keeps `createdAt`. -/
theorem editResult_createdAt (c : Comment) (txt : String) (now : Int) :
    (editResult c txt now).createdAt = c.createdAt := by
  unfold editResult; by_cases hE : c.isEdited <;> simp [hE]

/-- `editResult` keeps `isDeleted`. -/
theorem editResult_isDeleted (c : Comment) (txt : String) (now : Int) :
    (editResult c txt now).isDeleted = c.isDeleted := by
  unfold editResult; by_cases hE : c.isEdited <;> simp [hE]

/-- `editResult` sets the new content. -/
theorem editResult_content (c : Comment) (txt : String) (now : Int) :
    (editResult c txt now).content = txt := by
  unfold editResult; by_cases hE : c.isEdited <;> simp [hE]

/-- `editResult` sets the edited flag. -/
theorem editResult_isEdited (c : Comment) (txt : String) (now : Int) :
    (editResult c txt now).isEdited = true := by
  unfold editResult; by_cases hE : c.isEdited <;> simp [hE]

/-- `editResult` stamps the edit time. -/
theorem editResult_editedAt (c : Comment) (txt : String) (now : Int) :
    (editResult c txt now).editedAt = some now := by
  unfold editResult; by_cases hE : c.isEdited <;> simp [hE]

/-- `editResult` captures `originalContent` only on the first edit. -/
theorem editResult_originalContent (c : Comment) (txt : String) (now : Int) :
    (editResult c txt now).originalContent
      = (if c.isEdited then c.originalContent else some c.content) := by
  unfold editResult; by_cases hE : c.isEdited <;> simp [hE]

/-- `isEditable` forces `isDeleted = false`. -/
theorem isDeleted_false_of_isEditable (c : Comment) (now : Int)
    (he : c.isEditable now = true) : c.isDeleted = false := by
  unfold Comment.isEditable at he
  cases hcd : c.isDeleted
  · rfl
  · rw [hcd] at he; simp at he

/-- Happy path of `update`: the owner editing an editable comment gets
`editResult` saved and returned. -/
theorem update_ok_of_editable (s : Store) (cid txt uid : String) (now : Int)
    (c : Comment) (hf : findById s cid = some c) (ha : c.authorId = uid)
    (he : c.isEditable now = true) :
    update s cid txt uid now
      = (saveUpdate s (editResult c txt now), .ok (editResult c txt now)) := by
  have hd : c.isDeleted = false := isDeleted_false_of_isEditable c now he
  have hbne : (c.authorId != uid) = false := by simp [ha]
  simp [update, hf, hbne, he, hd, editResult]

/-! Claim theorems. -/

/-- Claim C6: for an existing comment whose author differs from the
requester, edit, delete, and restore all fail with `Forbidden` — whatever the
window state or the comment's flags — and return the store unchanged. -/
theorem c6_ownership_forbidden (s : Store) (id r txt : String) (now : Int)
    (c : Comment) (hfind : findById s id = some c) (hne : c.authorId ≠ r) :
    update s id txt r now = (s, .error .Forbidden)
    ∧ delete s id r now = (s, .error .Forbidden)
    ∧ restore s id r now = (s, .error .Forbidden) := by
  have hbne : (c.authorId != r) = true := by
    simp [bne_iff_ne]; exact hne
  refine ⟨?_, ?_, ?_⟩ <;> simp [update, delete, restore, hfind, hbne]

/-- Claim C6, witness: `bob` cannot edit, delete, or restore `alice`'s
comment. -/
theorem c6_ownership_forbidden_witness :
    findById [parentP] "P" = some parentP ∧ parentP.authorId ≠ "bob"
    ∧ update [parentP] "P" "t" "bob" 0 = ([parentP], .error .Forbidden)
    ∧ delete [parentP] "P" "bob" 0 = ([parentP], .error .Forbidden)
    ∧ restore [parentP] "P" "bob" 0 = ([parentP], .error .Forbidden) := by
  have h := c6_ownership_forbidden [parentP] "P" "bob" "t" 0 parentP
    (by decide) (by decide)
  exact ⟨by decide, by decide, h.1, h.2.1, h.2.2⟩

/-- Claim C1 (code bug). The service's child-count write (lines 46-49) stores
`parent.childrenCount + 1` computed from the previously fetched parent row —
a fetch-then-save, not an atomic add. When two reply requests both fetch the
parent (with `childrenCount = 0`) before either writes, the final stored
count is 1, not the 2 the claim requires for N = 2. -/
theorem c1_children_count_lost_update :
    findById [parentP] "P" = some parentP
    ∧ parentP.childrenCount = 0
    ∧ (findById lostUpdateStore "P").map Comment.childrenCount = some 1
    ∧ (findById lostUpdateStore "P").map Comment.childrenCount ≠ some 2 :=
  ⟨by decide, by decide, by decide, by decide⟩

/-- Claim C2 (code bug). The notification call (lines 63-69) is awaited with
no failure isolation: when it fails, `create` throws even though the comment
row was already persisted; with a succeeding call the same creation returns
the comment. -/
theorem c2_notification_failure_propagates :
    (create [parentP] replyData "X" 5 false).2 = .error .NotifyFailed
    ∧ findById (create [parentP] replyData "X" 5 false).1 "X" = some replyX
    ∧ (create [parentP] replyData "X" 5 true).2 = .ok replyX :=
  ⟨by decide, by decide, by decide⟩

/-- Claim C7 (code bug). For a soft-deleted comment inside the edit window,
the author's edit fails with `Forbidden` (the `isEditable` getter is already
false because it checks `!isDeleted`, so line 160 throws), not with the
`InvalidState` the claim requires; the `InvalidState` check at lines 163-165
is unreachable. -/
theorem c7_edit_deleted_gives_forbidden :
    cDel.isDeleted = true
    ∧ cDel.isEditable 1 = false
    ∧ update [cDel] "D" "new" "alice" 1 = ([cDel], .error .Forbidden)
    ∧ (update [cDel] "D" "new" "alice" 1).2 ≠ .error .InvalidState :=
  ⟨by decide, by decide, by decide, by decide⟩

/-- Claim C8 (code bug). On the chain `R ← B ← C`,
`findByIdWithChildren "R"` attaches `C` both directly under `R` and under
`B`, because `buildNestedStructure` selects as children every comment whose
path merely contains the id as a segment; the retrieved comments whose
`parentId` is `R` are just `[B]`, so the code's direct children of the root
are not those the claim describes, and the descendant `C` appears twice. -/
theorem c8_nested_children_duplicated :
    (findByIdWithChildren subtreeStore "R").map
        (fun r => r.2.map (fun t => (t.node.id, t.kids.map (fun u => u.node.id))))
      = some [("B", ["C"]), ("C", [])]
    ∧ ((subtreeFlatQuery subtreeStore rootR).filter
        (fun x => x.parentId == some "R")).map Comment.id = ["B"]
    ∧ (findByIdWithChildren subtreeStore "R").map (fun r => r.2.map (fun t => t.node.id))
      ≠ some (((subtreeFlatQuery subtreeStore rootR).filter
          (fun x => x.parentId == some "R")).map Comment.id) :=
  ⟨by decide, by decide, by decide⟩

/-- Claim C4, counterexample: at the instant exactly 15 minutes after
creation, `now − createdAt ≤ 15 min` holds and the comment is not deleted,
yet the entity's `isEditable` is false — the getter compares with a strict
`>`, so the claim's non-strict window reading fails at the boundary. -/
theorem c4_window_boundary_counterexample :
    ¬ (boundaryComment.isEditable editWindowMs = true ↔
       (editWindowMs - boundaryComment.createdAt ≤ editWindowMs
        ∧ boundaryComment.isDeleted = false)) := by
  decide

/-- Claim C4 (amended: all three windows are strict — `now − createdAt <
15 min` for editable, and editable additionally requires not deleted;
`now − createdAt < 15 min` for deletable, with no check of `isDeleted`;
restorable iff deleted, `deletedAt` set, and `now − deletedAt < 15 min`). -/
theorem c4_mutation_policy_strict_window (c : Comment) (now : Int) :
    c.isEditable now = (decide (now - c.createdAt < editWindowMs) && !c.isDeleted)
    ∧ c.isDeletable now = decide (now - c.createdAt < editWindowMs)
    ∧ c.isRestorable now =
        (c.isDeleted &&
          (c.deletedAt.map (fun d => decide (now - d < editWindowMs))).getD false) := by
  refine ⟨?_, ?_, ?_⟩
  · unfold Comment.isEditable
    have h : decide (c.createdAt > now - editWindowMs)
        = decide (now - c.createdAt < editWindowMs) := by
      simp only [decide_eq_decide]
      omega
    rw [h]
  · unfold Comment.isDeletable
    simp only [decide_eq_decide]
    omega
  · unfold Comment.isRestorable
    cases hd : c.isDeleted <;> cases hda : c.deletedAt <;>
        simp [decide_eq_decide]
    omega

/-- Claim C5: owner mutations inside the respective windows perform exactly
the specified updates — edit sets `isEdited`/`editedAt` and captures
`originalContent` only on the first edit; delete sets `isDeleted`/`deletedAt`;
restore clears them and stamps `restoredAt`; and two in-window edits leave
`originalContent` at the creation content and `content` at the latest text. -/
theorem c5_mutation_effects :
    (∀ (s : Store) (cid txt uid : String) (now : Int) (c : Comment),
      findById s cid = some c → c.authorId = uid → c.isEditable now = true →
      ∃ c', update s cid txt uid now = (saveUpdate s c', .ok c')
        ∧ c'.isEdited = true ∧ c'.editedAt = some now ∧ c'.content = txt
        ∧ c'.originalContent
            = (if c.isEdited then c.originalContent else some c.content))
    ∧ (∀ (s : Store) (cid uid : String) (now : Int) (c : Comment),
      findById s cid = some c → c.authorId = uid → c.isDeletable now = true →
      ∃ c', delete s cid uid now = (saveUpdate s c', .ok c')
        ∧ c'.isDeleted = true ∧ c'.deletedAt = some now)
    ∧ (∀ (s : Store) (cid uid : String) (now : Int) (c : Comment),
      findById s cid = some c → c.authorId = uid → c.isRestorable now = true →
      ∃ c', restore s cid uid now = (saveUpdate s c', .ok c')
        ∧ c'.isDeleted = false ∧ c'.deletedAt = none ∧ c'.restoredAt = some now)
    ∧ (∀ (s : Store) (cid uid txt1 txt2 : String) (t1 t2 : Int) (c : Comment),
      findById s cid = some c → c.authorId = uid → c.isEdited = false →
      c.isEditable t1 = true → c.isEditable t2 = true →
      ∃ s1 c1 c2, update s cid txt1 uid t1 = (s1, .ok c1)
        ∧ update s1 cid txt2 uid t2 = (saveUpdate s1 c2, .ok c2)
        ∧ c2.originalContent = some c.content ∧ c2.content = txt2
        ∧ c2.isEdited = true) := by
  refine ⟨?_, ?_, ?_, ?_⟩
  · intro s cid txt uid now c hf ha he
    exact ⟨editResult c txt now, update_ok_of_editable s cid txt uid now c hf ha he,
      editResult_isEdited c txt now, editResult_editedAt c txt now,
      editResult_content c txt now, editResult_originalContent c txt now⟩
  · intro s cid uid now c hf ha hdl
    have hbne : (c.authorId != uid) = false := by simp [ha]
    refine ⟨{ c with isDeleted := true, deletedAt := some now }, ?_, rfl, rfl⟩
    simp [delete, hf, hbne, hdl]
  · intro s cid uid now c hf ha hrs
    have hbne : (c.authorId != uid) = false := by simp [ha]
    refine ⟨{ c with isDeleted := false, deletedAt := none, restoredAt := some now }, ?_, rfl, rfl, rfl⟩
    simp [restore, hf, hbne, hrs]
  · intro s cid uid txt1 txt2 t1 t2 c hf ha hE h1 h2
    have e1 := update_ok_of_editable s cid txt1 uid t1 c hf ha h1
    have hf1 : findById (saveUpdate s (editResult c txt1 t1)) cid
        = some (editResult c txt1 t1) :=
      findById_saveUpdate_hit s cid c _ hf (editResult_id c txt1 t1)
    have ha1 : (editResult c txt1 t1).authorId = uid := by
      rw [editResult_authorId, ha]
    have he1 : (editResult c txt1 t1).isEditable t2 = true := by
      unfold Comment.isEditable at h2 ⊢
      rw [editResult_createdAt, editResult_isDeleted]
      exact h2
    have e2 := update_ok_of_editable _ cid txt2 uid t2 _ hf1 ha1 he1
    refine ⟨saveUpdate s (editResult c txt1 t1), editResult c txt1 t1,
      editResult (editResult c txt1 t1) txt2 t2, e1, e2, ?_, ?_, ?_⟩
    · rw [editResult_originalContent, editResult_isEdited]
      simp [editResult_originalContent, hE]
    · exact editResult_content _ txt2 t2
    · exact editResult_isEdited _ txt2 t2

/-- Claim C5, witness: the four parts run on concrete fixtures — edit,
delete, and double-edit on `parentP`, restore on the deleted `cDel`. -/
theorem c5_mutation_effects_witness :
    (∃ c', update [parentP] "P" "e1" "alice" 1 = (saveUpdate [parentP] c', .ok c')
      ∧ c'.isEdited = true ∧ c'.editedAt = some 1 ∧ c'.content = "e1"
      ∧ c'.originalContent
          = (if parentP.isEdited then parentP.originalContent
             else some parentP.content))
    ∧ (∃ c', delete [parentP] "P" "alice" 1 = (saveUpdate [parentP] c', .ok c')
      ∧ c'.isDeleted = true ∧ c'.deletedAt = some 1)
    ∧ (∃ c', restore [cDel] "D" "alice" 1 = (saveUpdate [cDel] c', .ok c')
      ∧ c'.isDeleted = false ∧ c'.deletedAt = none ∧ c'.restoredAt = some 1)
    ∧ (∃ s1 c1 c2, update [parentP] "P" "e1" "alice" 1 = (s1, .ok c1)
      ∧ update s1 "P" "e2" "alice" 2 = (saveUpdate s1 c2, .ok c2)
      ∧ c2.originalContent = some parentP.content ∧ c2.content = "e2"
      ∧ c2.isEdited = true) :=
  ⟨c5_mutation_effects.1 [parentP] "P" "e1" "alice" 1 parentP
      (by decide) rfl (by decide),
   c5_mutation_effects.2.1 [parentP] "P" "alice" 1 parentP
      (by decide) rfl (by decide),
   c5_mutation_effects.2.2.1 [cDel] "D" "alice" 1 cDel
      (by decide) rfl (by decide),
   c5_mutation_effects.2.2.2 [parentP] "P" "alice" "e1" "e2" 1 2 parentP
      (by decide) rfl (by decide) (by decide) (by decide)⟩

/-- Claim C9: a successful edit, soft delete, or restore returns a comment
that agrees with the stored one on `id`, `authorId`, `parentId`, `depth`,
and `path` — those fields are never rewritten by the three mutations. -/
theorem c9_write_once_fields (s : Store) (id r txt : String) (now : Int)
    (c c' : Comment) (hfind : findById s id = some c) :
    ((update s id txt r now).2 = .ok c' →
      c'.id = c.id ∧ c'.authorId = c.authorId ∧ c'.parentId = c.parentId
      ∧ c'.depth = c.depth ∧ c'.path = c.path)
    ∧ ((delete s id r now).2 = .ok c' →
      c'.id = c.id ∧ c'.authorId = c.authorId ∧ c'.parentId = c.parentId
      ∧ c'.depth = c.depth ∧ c'.path = c.path)
    ∧ ((restore s id r now).2 = .ok c' →
      c'.id = c.id ∧ c'.authorId = c.authorId ∧ c'.parentId = c.parentId
      ∧ c'.depth = c.depth ∧ c'.path = c.path) := by
  refine ⟨?_, ?_, ?_⟩
  · intro h
    by_cases h1 : (c.authorId != r) = true
    · simp [update, hfind, h1] at h
    · simp only [Bool.not_eq_true] at h1
      by_cases h2 : c.isEditable now = true
      · have ha : c.authorId = r := by simpa using h1
        rw [update_ok_of_editable s id txt r now c hfind ha h2] at h
        simp only [Except.ok.injEq] at h
        subst h
        exact ⟨editResult_id c txt now, editResult_authorId c txt now,
          editResult_parentId c txt now, editResult_depth c txt now,
          editResult_path c txt now⟩
      · simp only [Bool.not_eq_true] at h2
        simp [update, hfind, h1, h2] at h
  · intro h
    by_cases h1 : (c.authorId != r) = true
    · simp [delete, hfind, h1] at h
    · simp only [Bool.not_eq_true] at h1
      by_cases h2 : c.isDeletable now = true
      · simp [delete, hfind, h1, h2] at h
        subst h
        simp
      · simp only [Bool.not_eq_true] at h2
        simp [delete, hfind, h1, h2] at h
  · intro h
    by_cases h1 : (c.authorId != r) = true
    · simp [restore, hfind, h1] at h
    · simp only [Bool.not_eq_true] at h1
      by_cases h2 : c.isRestorable now = true
      · simp [restore, hfind, h1, h2] at h
        subst h
        simp
      · simp only [Bool.not_eq_true] at h2
        simp [restore, hfind, h1, h2] at h

/-- Claim C9, witness: a concrete successful edit, delete, and restore keep
the write-once fields. -/
theorem c9_write_once_fields_witness :
    ((update [parentP] "P" "e1" "alice" 1).2 = .ok editedP →
      editedP.id = parentP.id ∧ editedP.authorId = parentP.authorId
      ∧ editedP.parentId = parentP.parentId ∧ editedP.depth = parentP.depth
      ∧ editedP.path = parentP.path)
    ∧ (update [parentP] "P" "e1" "alice" 1).2 = .ok editedP
    ∧ editedP.id = parentP.id ∧ editedP.path = parentP.path :=
  have h := (c9_write_once_fields [parentP] "P" "alice" "e1" 1 parentP editedP
    (by decide)).1
  ⟨h, by decide, (h (by decide)).1, (h (by decide)).2.2.2.2⟩

/-- Claim C3: creation ancestry. Without a parent the new comment is a root
(depth 0, empty path); a missing parent fails `NotFound`; a soft-deleted
parent fails `InvalidState`; otherwise the persisted comment has
`depth = parent.depth + 1` and `path = parent.id` when the parent's path is
empty, else `parent.path ++ "." ++ parent.id` — and when the notification
step does not throw it is also the returned value. `findById s newId = none`
says the store-generated id is fresh. -/
theorem c3_create_ancestry (s : Store) (data : CreateCommentData)
    (newId : String) (now : Int) (notifyOk : Bool) :
    (data.parentId = none → findById s newId = none →
      ∃ c, (create s data newId now notifyOk).2 = .ok c
        ∧ findById (create s data newId now notifyOk).1 newId = some c
        ∧ c.depth = 0 ∧ c.path = "")
    ∧ (∀ pid, data.parentId = some pid → findById s pid = none →
        create s data newId now notifyOk = (s, .error .NotFound))
    ∧ (∀ pid parent, data.parentId = some pid → findById s pid = some parent →
        parent.isDeleted = true →
        create s data newId now notifyOk = (s, .error .InvalidState))
    ∧ (∀ pid parent, data.parentId = some pid → findById s pid = some parent →
        parent.isDeleted = false → findById s newId = none →
        ∃ c, findById (create s data newId now notifyOk).1 newId = some c
          ∧ c.depth = parent.depth + 1
          ∧ c.path = (if parent.path = "" then parent.id
                      else parent.path ++ "." ++ parent.id)
          ∧ (notifyOk = true →
              (create s data newId now notifyOk).2 = .ok c)) := by
  refine ⟨?_, ?_, ?_, ?_⟩
  · intro hp hfresh
    have h1 := findById_insert_fresh s
      { id := newId, content := data.content, authorId := data.authorId,
        parentId := none, depth := 0, path := "", createdAt := now }
      newId hfresh rfl
    refine ⟨{ id := newId, content := data.content, authorId := data.authorId, parentId := none, depth := 0, path := "", createdAt := now }, ?_, ?_, rfl, rfl⟩ <;>
      simp [create, hp, h1]
  · intro pid hp hnone
    simp [create, hp, hnone]
  · intro pid parent hp hpar hdel
    simp [create, hp, hpar, hdel]
  · intro pid parent hp hpar hdel hfresh
    have hfresh1 : findById (incrementParentChildrenCount s parent) newId
        = none := by
      unfold incrementParentChildrenCount
      rw [findById_updateChildrenCount, hfresh]
      rfl
    have h2 := findById_insert_fresh (incrementParentChildrenCount s parent)
      { id := newId, content := data.content, authorId := data.authorId,
        parentId := some pid, depth := parent.depth + 1,
        path := if parent.path != "" then parent.path ++ "." ++ parent.id
                else parent.id,
        createdAt := now }
      newId hfresh1 rfl
    have hpath : (if parent.path != "" then parent.path ++ "." ++ parent.id
        else parent.id)
        = (if parent.path = "" then parent.id
           else parent.path ++ "." ++ parent.id) := by
      by_cases hpp : parent.path = "" <;> simp [hpp]
    rw [hpath] at h2
    simp only [incrementParentChildrenCount] at h2
    refine ⟨{ id := newId, content := data.content, authorId := data.authorId, parentId := some pid, depth := parent.depth + 1, path := if parent.path = "" then parent.id else parent.path ++ "." ++ parent.id, createdAt := now }, ?_, rfl, rfl, ?_⟩
    · by_cases hnot : (parent.authorId != data.authorId && !notifyOk) = true <;>
        simp [create, hp, hpar, hdel, incrementParentChildrenCount, hnot, h2]
    · intro hok
      subst hok
      simp [create, hp, hpar, hdel, incrementParentChildrenCount, h2]

/-- Claim C3, witness: the four creation cases on concrete stores — a fresh
root, a reply to a missing parent, a reply to the deleted `cDel`, and a
reply to `parentP`. -/
theorem c3_create_ancestry_witness :
    (∃ c, (create [] { content := "r", authorId := "u" } "R" 0 true).2 = .ok c
      ∧ findById (create [] { content := "r", authorId := "u" } "R" 0 true).1 "R"
          = some c
      ∧ c.depth = 0 ∧ c.path = "")
    ∧ create [parentP] { content := "h", authorId := "u", parentId := some "Q" }
        "X" 5 true = ([parentP], .error .NotFound)
    ∧ create [cDel] { content := "h", authorId := "u", parentId := some "D" }
        "X" 5 true = ([cDel], .error .InvalidState)
    ∧ (∃ c, findById (create [parentP] replyData "X" 5 true).1 "X" = some c
      ∧ c.depth = parentP.depth + 1
      ∧ c.path = (if parentP.path = "" then parentP.id
                  else parentP.path ++ "." ++ parentP.id)
      ∧ (true = true → (create [parentP] replyData "X" 5 true).2 = .ok c)) :=
  ⟨(c3_create_ancestry [] { content := "r", authorId := "u" } "R" 0 true).1
      rfl (by decide),
   (c3_create_ancestry [parentP]
      { content := "h", authorId := "u", parentId := some "Q" } "X" 5 true).2.1
      "Q" rfl (by decide),
   (c3_create_ancestry [cDel]
      { content := "h", authorId := "u", parentId := some "D" } "X" 5 true).2.2.1
      "D" cDel rfl (by decide) (by decide),
   (c3_create_ancestry [parentP] replyData "X" 5 true).2.2.2
      "P" parentP rfl (by decide) (by decide) (by decide)⟩

/-- Claim C10: membership in the path-prefix subtree query and in the thread
query depends only on id and path — no deletion filter — and
`getThreadByComment` returns exactly the thread query of the derived root;
by contrast `findMany` without `includeDeleted` excludes every soft-deleted
row from the returned page. -/
theorem c10_tree_queries_ignore_deletion (s : Store) (x comment : Comment)
    (cid rootId : String) (o : FindManyOptions) (hx : x ∈ s) :
    (x ∈ subtreeFlatQuery s comment ↔
      (likeStartsWith (subtreePathStem comment) x.path = true
       ∧ x.id ≠ comment.id))
    ∧ (x ∈ threadQuery s rootId ↔
      (x.id = rootId ∨ likeStartsWith rootId x.path = true))
    ∧ (findById s cid = some comment →
        getThreadByComment s cid
          = .ok (threadQuery s (if comment.path != "" then
              (pathSegments comment.path).headD cid else cid)))
    ∧ (o.includeDeleted = false → x.isDeleted = true →
        x ∉ (findMany s o).1) := by
  refine ⟨?_, ?_, ?_, ?_⟩
  · unfold subtreeFlatQuery sortByCreatedAt
    rw [mem_sortComments]
    simp [List.mem_filter, hx, bne_iff_ne]
  · unfold threadQuery sortByCreatedAt
    rw [mem_sortComments]
    simp [List.mem_filter, hx]
  · intro hf
    simp [getThreadByComment, hf]
  · intro hio hdel hmem
    simp only [findMany] at hmem
    have h1 : x ∈ sortByCreatedAtDesc (s.filter (findManyPred o)) :=
      List.drop_subset _ _ (List.take_subset _ _ hmem)
    rw [sortByCreatedAtDesc, mem_sortComments] at h1
    have h2 := (List.mem_filter.mp h1).2
    simp [findManyPred, hio, hdel] at h2

/-- Claim C10, witness: the deleted-blind queries and the deletion-filtering
`findMany` run on concrete stores. -/
theorem c10_tree_queries_ignore_deletion_witness :
    grandC ∈ subtreeStore
    ∧ (grandC ∈ subtreeFlatQuery subtreeStore rootR ↔
        (likeStartsWith (subtreePathStem rootR) grandC.path = true
         ∧ grandC.id ≠ rootR.id))
    ∧ (grandC ∈ threadQuery subtreeStore "R" ↔
        (grandC.id = "R" ∨ likeStartsWith "R" grandC.path = true))
    ∧ getThreadByComment subtreeStore "C"
        = .ok (threadQuery subtreeStore (if grandC.path != "" then
            (pathSegments grandC.path).headD "C" else "C"))
    ∧ cDel.isDeleted = true
    ∧ cDel ∉ (findMany [cDel] {}).1 := by
  have h1 := c10_tree_queries_ignore_deletion subtreeStore grandC rootR
    "C" "R" {} (by decide)
  have h2 := c10_tree_queries_ignore_deletion subtreeStore grandC grandC
    "C" "R" {} (by decide)
  have h3 := c10_tree_queries_ignore_deletion [cDel] cDel cDel
    "D" "R" {} (by decide)
  exact ⟨by decide, h1.1, h1.2.1, h2.2.2.1 (by decide), by decide,
    h3.2.2.2 rfl rfl⟩

end CommentApp
